import Mathlib

/-!
Verification of the ellipsoid UV tessellator
(crates/bevy_render/src/mesh/primitives/dim3/ellipsoid.rs).

The tessellator maps a latitude/longitude grid onto an ellipsoid with
semi-axes (a, b, c), emitting positions, normals, UV coordinates and a
triangle index list.  Floating-point arithmetic of the source is embedded
as exact real arithmetic; the integer loop machinery is embedded over Nat.
-/

namespace EllipsoidMesh

/-- The ellipsoid shape: three semi-axis lengths, as in bevy_math. -/
structure Ellipsoid where
  a : ℝ
  b : ℝ
  c : ℝ

/-- Ellipsoid mesh options: sectors (horizontal) and stacks' (vertical). -/
structure EllipsoidOptions where
  sectors : ℕ
  stacks' : ℕ

/-- Default options from the source: 32 sectors, 16 stacks'. -/
def EllipsoidOptions.defaultOptions : EllipsoidOptions := ⟨32, 16⟩

/-- Builder holding the shape and tessellation options. -/
structure EllipsoidMeshBuilder where
  ellipsoid : Ellipsoid
  options : EllipsoidOptions

/-- EllipsoidMeshBuilder::new(a, b, c). -/
def EllipsoidMeshBuilder.new (a b c : ℝ) : EllipsoidMeshBuilder :=
  ⟨⟨a, b, c⟩, ⟨32, 16⟩⟩

/-- The four mesh buffers produced in one pass by the uv function. -/
structure MeshBuffers where
  vertices : List (ℝ × ℝ × ℝ)
  normals : List (ℝ × ℝ × ℝ)
  uvs : List (ℝ × ℝ)
  indices : List ℕ

/-- stack_angle = PI/2 - i * (PI / stacks'), as computed in the outer loop. -/
noncomputable def stackAngle (stacks' i : ℕ) : ℝ :=
  Real.pi / 2 - (i : ℝ) * (Real.pi / (stacks' : ℝ))

/-- sector_angle = j * (2 * PI / sectors), as computed in the inner loop. -/
noncomputable def sectorAngle (sectors j : ℕ) : ℝ :=
  (j : ℝ) * (2 * Real.pi / (sectors : ℝ))

/-- The vertex pushed for grid sample (i, j): the loop computes
x = a * cos(stack_angle), y = b * cos(stack_angle), z = c * sin(stack_angle)
and then shadows x, y with x * cos(sector_angle), y * sin(sector_angle). -/
noncomputable def vertexAt (e : Ellipsoid) (sectors stacks' i j : ℕ) : ℝ × ℝ × ℝ :=
  let x := e.a * Real.cos (stackAngle stacks' i)
  let y := e.b * Real.cos (stackAngle stacks' i)
  let z := e.c * Real.sin (stackAngle stacks' i)
  (x * Real.cos (sectorAngle sectors j), y * Real.sin (sectorAngle sectors j), z)

/-- The normal pushed for grid sample (i, j): the shadowed vertex components
multiplied by a_inv = 1/a, b_inv = 1/b, c_inv = 1/c. -/
noncomputable def normalAt (e : Ellipsoid) (sectors stacks' i j : ℕ) : ℝ × ℝ × ℝ :=
  ((vertexAt e sectors stacks' i j).1 * (1 / e.a),
    (vertexAt e sectors stacks' i j).2.1 * (1 / e.b),
    (vertexAt e sectors stacks' i j).2.2 * (1 / e.c))

/-- The UV coordinate pushed for grid sample (i, j): (j/sectors, i/stacks'). -/
noncomputable def uvAt (sectors stacks' i j : ℕ) : ℝ × ℝ :=
  ((j : ℝ) / (sectors : ℝ), (i : ℝ) / (stacks' : ℝ))

/-- The grid samples (i, j) in the order the nested vertex loops visit them:
i in 0..stacks'+1 outer, j in 0..sectors+1 inner. -/
def gridSamples (sectors stacks' : ℕ) : List (ℕ × ℕ) :=
  (List.range (stacks' + 1)).flatMap fun i =>
    (List.range (sectors + 1)).map fun j => (i, j)

/-- The vertices buffer: one vertex per grid sample, in loop order. -/
noncomputable def buildVertices (e : Ellipsoid) (sectors stacks' : ℕ) : List (ℝ × ℝ × ℝ) :=
  (gridSamples sectors stacks').map fun p => vertexAt e sectors stacks' p.1 p.2

/-- The normals buffer: one normal per grid sample, in loop order. -/
noncomputable def buildNormals (e : Ellipsoid) (sectors stacks' : ℕ) : List (ℝ × ℝ × ℝ) :=
  (gridSamples sectors stacks').map fun p => normalAt e sectors stacks' p.1 p.2

/-- The uvs buffer: one UV coordinate per grid sample, in loop order. -/
noncomputable def buildUVs (sectors stacks' : ℕ) : List (ℝ × ℝ) :=
  (gridSamples sectors stacks').map fun p => uvAt sectors stacks' p.1 p.2

/-- The inner index loop over _j in 0..sectors, carrying the mutable k1 and
k2 counters: per iteration it pushes (k1, k2, k1+1) unless i == 0 and then
(k1+1, k2, k2+1) unless i == stacks' - 1, then increments k1 and k2. -/
def sectorLoop (stacks' i : ℕ) : ℕ → ℕ → ℕ → List ℕ
  | _, _, 0 => []
  | k1, k2, n + 1 =>
      ((if i ≠ 0 then [k1, k2, k1 + 1] else []) ++
        (if i ≠ stacks' - 1 then [k1 + 1, k2, k2 + 1] else [])) ++
        sectorLoop stacks' i (k1 + 1) (k2 + 1) n

/-- The indices buffer: the outer loop over i in 0..stacks' initialises
k1 = i * (sectors + 1) and k2 = k1 + sectors + 1 and runs the inner loop. -/
def buildIndices (sectors stacks' : ℕ) : List ℕ :=
  (List.range stacks').flatMap fun i =>
    sectorLoop stacks' i (i * (sectors + 1)) (i * (sectors + 1) + sectors + 1) sectors

/-- EllipsoidMeshBuilder::uv(sectors, stacks'): produces all four buffers. -/
noncomputable def EllipsoidMeshBuilder.uv (self : EllipsoidMeshBuilder)
    (sectors stacks' : ℕ) : MeshBuffers :=
  { vertices := buildVertices self.ellipsoid sectors stacks'
    normals := buildNormals self.ellipsoid sectors stacks'
    uvs := buildUVs sectors stacks'
    indices := buildIndices sectors stacks' }

/-- MeshBuilder::build for the ellipsoid builder: uv at the stored options. -/
noncomputable def EllipsoidMeshBuilder.build (self : EllipsoidMeshBuilder) : MeshBuffers :=
  self.uv self.options.sectors self.options.stacks'

/-- Componentwise scaling of a vector by the reciprocal semi-axis lengths. -/
noncomputable def recipScale (e : Ellipsoid) (v : ℝ × ℝ × ℝ) : ℝ × ℝ × ℝ :=
  (v.1 * (1 / e.a), v.2.1 * (1 / e.b), v.2.2 * (1 / e.c))

/-- Cross product of two vectors represented as nested pairs. -/
def crossProd (u v : ℝ × ℝ × ℝ) : ℝ × ℝ × ℝ :=
  (u.2.1 * v.2.2 - u.2.2 * v.2.1,
    u.2.2 * v.1 - u.1 * v.2.2,
    u.1 * v.2.1 - u.2.1 * v.1)

/-- Squared euclidean norm of a vector represented as nested pairs. -/
def normSq (v : ℝ × ℝ × ℝ) : ℝ :=
  v.1 * v.1 + v.2.1 * v.2.1 + v.2.2 * v.2.2

/-- The normal as the specification describes it: the unit-sphere direction
at (stack_angle, sector_angle) scaled componentwise by the reciprocals of
the semi-axis lengths. -/
noncomputable def specNormalAt (e : Ellipsoid) (sectors stacks' i j : ℕ) : ℝ × ℝ × ℝ :=
  (Real.cos (stackAngle stacks' i) * Real.cos (sectorAngle sectors j) * (1 / e.a),
    Real.cos (stackAngle stacks' i) * Real.sin (sectorAngle sectors j) * (1 / e.b),
    Real.sin (stackAngle stacks' i) * (1 / e.c))

/-- The index list as the specification describes it: for each band i and
column j, with k1 = i * (sectors+1) + j and k2 = k1 + sectors + 1, the
triangle (k1, k2, k1+1) when i is not 0, then (k1+1, k2, k2+1) when i is
not stacks' - 1. -/
def specTriangles (sectors stacks' : ℕ) : List ℕ :=
  (List.range stacks').flatMap fun i =>
    (List.range sectors).flatMap fun j =>
      (if i ≠ 0 then
        [i * (sectors + 1) + j, i * (sectors + 1) + j + sectors + 1,
          i * (sectors + 1) + j + 1] else []) ++
      (if i ≠ stacks' - 1 then
        [i * (sectors + 1) + j + 1, i * (sectors + 1) + j + sectors + 1,
          i * (sectors + 1) + j + sectors + 2] else [])

/- ### Helper lemmas -/

theorem gridSamples_succ (sectors stacks' : ℕ) :
    gridSamples sectors (stacks' + 1) =
      gridSamples sectors stacks' ++
        (List.range (sectors + 1)).map (fun j => (stacks' + 1, j)) := by
  simp [gridSamples, List.range_succ]

theorem length_gridSamples (sectors stacks' : ℕ) :
    (gridSamples sectors stacks').length = (stacks' + 1) * (sectors + 1) := by
  induction stacks' with
  | zero => simp [gridSamples, List.range_succ, Function.comp]
  | succ n ih => rw [gridSamples_succ]; simp [ih]; ring

theorem length_buildVertices (e : Ellipsoid) (sectors stacks' : ℕ) :
    (buildVertices e sectors stacks').length = (stacks' + 1) * (sectors + 1) := by
  simp [buildVertices, length_gridSamples]

theorem length_buildNormals (e : Ellipsoid) (sectors stacks' : ℕ) :
    (buildNormals e sectors stacks').length = (stacks' + 1) * (sectors + 1) := by
  simp [buildNormals, length_gridSamples]

theorem length_buildUVs (sectors stacks' : ℕ) :
    (buildUVs sectors stacks').length = (stacks' + 1) * (sectors + 1) := by
  simp [buildUVs, length_gridSamples]

theorem sectorLoop_eq (stacks' i : ℕ) (n : ℕ) :
    ∀ k1 k2 : ℕ,
      sectorLoop stacks' i k1 k2 n =
        (List.range n).flatMap fun j =>
          (if i ≠ 0 then [k1 + j, k2 + j, k1 + j + 1] else []) ++
          (if i ≠ stacks' - 1 then [k1 + j + 1, k2 + j, k2 + j + 1] else []) := by
  induction n with
  | zero => intro k1 k2; simp [sectorLoop]
  | succ n ih =>
    intro k1 k2
    rw [List.range_succ_eq_map, List.flatMap_cons, List.flatMap_map]
    simp only [sectorLoop, ih (k1 + 1) (k2 + 1), Nat.add_zero]
    refine congrArg _ (congrArg _ (funext fun j => ?_))
    simp only [Nat.succ_eq_add_one]
    have h1 : k1 + 1 + j = k1 + (j + 1) := by omega
    have h2 : k2 + 1 + j = k2 + (j + 1) := by omega
    rw [h1, h2]

theorem buildIndices_eq_specTriangles (sectors stacks' : ℕ) :
    buildIndices sectors stacks' = specTriangles sectors stacks' := by
  unfold buildIndices specTriangles
  congr 1
  funext i
  rw [sectorLoop_eq]
  congr 1
  funext j
  have h3 : i * (sectors + 1) + sectors + 1 + j + 1 =
      i * (sectors + 1) + j + sectors + 2 := by omega
  have h2 : i * (sectors + 1) + sectors + 1 + j =
      i * (sectors + 1) + j + sectors + 1 := by omega
  rw [h3, h2]

theorem cell_length (stacks' i k1 k2 : ℕ) :
    ((if i ≠ 0 then [k1, k2, k1 + 1] else []) ++
      (if i ≠ stacks' - 1 then [k1 + 1, k2, k2 + 1] else [])).length =
    (if i = 0 then 0 else 3) + (if i = stacks' - 1 then 0 else 3) := by
  by_cases h0 : i = 0
  · subst h0
    by_cases h1 : (0 : ℕ) = stacks' - 1
    · simp [← h1]
    · simp [h1]
  · by_cases h1 : i = stacks' - 1
    · subst h1
      simp [h0]
    · simp [h0, h1]

theorem length_sectorLoop (stacks' i : ℕ) (n : ℕ) :
    ∀ k1 k2 : ℕ,
      (sectorLoop stacks' i k1 k2 n).length =
        ((if i = 0 then 0 else 3) + (if i = stacks' - 1 then 0 else 3)) * n := by
  induction n with
  | zero => intro k1 k2; simp [sectorLoop]
  | succ n ih =>
    intro k1 k2
    show ((_ ++ _) ++ sectorLoop stacks' i (k1 + 1) (k2 + 1) n).length = _
    rw [List.length_append, cell_length, ih (k1 + 1) (k2 + 1)]
    ring

theorem list_sum_map_add (l : List ℕ) (f g : ℕ → ℕ) :
    (l.map fun i => f i + g i).sum = (l.map f).sum + (l.map g).sum := by
  induction l with
  | nil => simp
  | cons a t ih => simp [ih]; omega

theorem list_sum_map_mul_right (l : List ℕ) (f : ℕ → ℕ) (s : ℕ) :
    (l.map fun i => f i * s).sum = (l.map f).sum * s := by
  induction l with
  | nil => simp
  | cons a t ih => simp [ih]; ring

theorem sum_range_ite_zero (n : ℕ) :
    ((List.range n).map fun i => if i = 0 then 0 else 3).sum = 3 * (n - 1) := by
  induction n with
  | zero => simp
  | succ n ih =>
    rw [List.range_succ]
    simp [ih]
    rcases n with _ | m
    · simp
    · simp
      omega

theorem sum_range_ite_last_ge (p : ℕ) :
    ∀ n, n ≤ p → ((List.range n).map fun i => if i = p then 0 else 3).sum = 3 * n := by
  intro n
  induction n with
  | zero => intro _; simp
  | succ n ih =>
    intro hn
    rw [List.range_succ]
    have hnp : n ≠ p := by omega
    simp [ih (by omega), hnp]
    omega

theorem sum_range_ite_last (n p : ℕ) (h : p < n) :
    ((List.range n).map fun i => if i = p then 0 else 3).sum = 3 * (n - 1) := by
  induction n with
  | zero => omega
  | succ n ih =>
    rw [List.range_succ]
    by_cases hp : p = n
    · subst hp
      simp [sum_range_ite_last_ge p p le_rfl]
    · have hpn : p < n := by omega
      have hne : n ≠ p := by omega
      simp [ih hpn, hne]
      omega

theorem length_buildIndices (sectors stacks' : ℕ) (h : 2 ≤ stacks') :
    (buildIndices sectors stacks').length = 3 * (2 * (stacks' - 2) + 2) * sectors := by
  have hlen : (buildIndices sectors stacks').length =
      ((List.range stacks').map fun i =>
        ((if i = 0 then 0 else 3) + (if i = stacks' - 1 then 0 else 3)) * sectors).sum := by
    simp only [buildIndices, List.length_flatMap]
    refine congrArg List.sum (List.map_congr_left fun i _ => ?_)
    simp [Function.comp, length_sectorLoop]
  rw [hlen, list_sum_map_mul_right, list_sum_map_add, sum_range_ite_zero,
    sum_range_ite_last stacks' (stacks' - 1) (by omega)]
  have : 3 * (stacks' - 1) + 3 * (stacks' - 1) = 3 * (2 * (stacks' - 2) + 2) := by omega
  rw [this]

theorem sectorLoop_one_zero (n : ℕ) : ∀ k1 k2 : ℕ, sectorLoop 1 0 k1 k2 n = [] := by
  induction n with
  | zero => intro k1 k2; rfl
  | succ n ih => intro k1 k2; simp [sectorLoop, ih]

theorem buildIndices_stacks_one (sectors : ℕ) : buildIndices sectors 1 = [] := by
  simp [buildIndices, List.range_succ, sectorLoop_one_zero]

theorem idx_bound (sectors stacks' i j : ℕ) (hi : i < stacks') (hj : j < sectors) :
    i * (sectors + 1) + j + sectors + 2 < (stacks' + 1) * (sectors + 1) := by
  have h1 : (i + 1) * (sectors + 1) ≤ stacks' * (sectors + 1) :=
    Nat.mul_le_mul_right _ hi
  have h2 : (stacks' + 1) * (sectors + 1) = stacks' * (sectors + 1) + (sectors + 1) := by
    ring
  have h3 : i * (sectors + 1) + j + sectors + 2 = (i + 1) * (sectors + 1) + (j + 1) := by
    ring
  omega

theorem mem_buildIndices_lt (sectors stacks' v : ℕ)
    (hv : v ∈ buildIndices sectors stacks') :
    v < (stacks' + 1) * (sectors + 1) := by
  rw [buildIndices_eq_specTriangles] at hv
  simp only [specTriangles, List.mem_flatMap, List.mem_range, List.mem_append] at hv
  obtain ⟨i, hi, j, hj, hv⟩ := hv
  have hb := idx_bound sectors stacks' i j hi hj
  rcases hv with h | h <;> split_ifs at h <;>
    simp only [List.mem_cons, List.not_mem_nil, or_false] at h <;>
    rcases h with rfl | rfl | rfl <;> omega

theorem normalAt_unit (e : Ellipsoid) (sectors stacks' i j : ℕ)
    (ha : e.a ≠ 0) (hb : e.b ≠ 0) (hc : e.c ≠ 0) :
    normalAt e sectors stacks' i j =
      (Real.cos (stackAngle stacks' i) * Real.cos (sectorAngle sectors j),
        Real.cos (stackAngle stacks' i) * Real.sin (sectorAngle sectors j),
        Real.sin (stackAngle stacks' i)) := by
  simp only [normalAt, vertexAt, Prod.mk.injEq]
  refine ⟨?_, ?_, ?_⟩
  · field_simp
    ring
  · field_simp
    ring
  · field_simp

theorem normSq_unit (θ φ : ℝ) :
    normSq (Real.cos θ * Real.cos φ, Real.cos θ * Real.sin φ, Real.sin θ) = 1 := by
  simp only [normSq]
  linear_combination Real.cos θ * Real.cos θ * Real.sin_sq_add_cos_sq φ +
    Real.sin_sq_add_cos_sq θ

theorem sectorAngle_zero (sectors : ℕ) : sectorAngle sectors 0 = 0 := by
  simp [sectorAngle]

theorem sectorAngle_full (sectors : ℕ) (h : sectors ≠ 0) :
    sectorAngle sectors sectors = 2 * Real.pi := by
  have hs : (sectors : ℝ) ≠ 0 := Nat.cast_ne_zero.mpr h
  rw [sectorAngle, mul_div_assoc']
  field_simp

theorem vertexAt_seam (e : Ellipsoid) (sectors stacks' i : ℕ) (h : sectors ≠ 0) :
    vertexAt e sectors stacks' i 0 = vertexAt e sectors stacks' i sectors := by
  simp [vertexAt, sectorAngle_zero, sectorAngle_full sectors h,
    Real.cos_two_pi, Real.sin_two_pi]

theorem gridSamples_zero (sectors : ℕ) :
    gridSamples sectors 0 = (List.range (sectors + 1)).map fun j => (0, j) := by
  simp [gridSamples, List.range_succ]

theorem gridSamples_getElem (sectors stacks' : ℕ) :
    ∀ k, k < (stacks' + 1) * (sectors + 1) →
      (gridSamples sectors stacks')[k]? =
        some (k / (sectors + 1), k % (sectors + 1)) := by
  induction stacks' with
  | zero =>
    intro k hk
    have hk' : k < sectors + 1 := by omega
    rw [gridSamples_zero, List.getElem?_map, List.getElem?_range hk']
    simp [Nat.div_eq_of_lt hk', Nat.mod_eq_of_lt hk']
  | succ n ih =>
    intro k hk
    rw [gridSamples_succ]
    by_cases h : k < (n + 1) * (sectors + 1)
    · rw [List.getElem?_append, length_gridSamples, if_pos h]
      exact ih k h
    · push_neg at h
      have h2 : (n + 1 + 1) * (sectors + 1) = (n + 1) * (sectors + 1) + (sectors + 1) := by
        ring
      have hr : k - (n + 1) * (sectors + 1) < sectors + 1 := by omega
      have hcomm : (sectors + 1) * (n + 1) = (n + 1) * (sectors + 1) := Nat.mul_comm _ _
      have hsplit : k = (sectors + 1) * (n + 1) + (k - (n + 1) * (sectors + 1)) := by omega
      rw [List.getElem?_append_right (by rw [length_gridSamples]; exact h),
        length_gridSamples, List.getElem?_map, List.getElem?_range hr]
      have hdiv : k / (sectors + 1) = n + 1 := by
        rw [hsplit, Nat.mul_add_div (by omega), Nat.div_eq_of_lt hr]
      have hmod : k % (sectors + 1) = k - (n + 1) * (sectors + 1) := by
        conv_lhs => rw [hsplit]
        rw [Nat.mul_add_mod, Nat.mod_eq_of_lt hr]
      simp [hdiv, hmod]

theorem buildVertices_getElem (e : Ellipsoid) (sectors stacks' k : ℕ)
    (hk : k < (stacks' + 1) * (sectors + 1)) :
    (buildVertices e sectors stacks')[k]? =
      some (vertexAt e sectors stacks' (k / (sectors + 1)) (k % (sectors + 1))) := by
  rw [buildVertices, List.getElem?_map, gridSamples_getElem sectors stacks' k hk]
  rfl

theorem buildNormals_getElem (e : Ellipsoid) (sectors stacks' k : ℕ)
    (hk : k < (stacks' + 1) * (sectors + 1)) :
    (buildNormals e sectors stacks')[k]? =
      some (normalAt e sectors stacks' (k / (sectors + 1)) (k % (sectors + 1))) := by
  rw [buildNormals, List.getElem?_map, gridSamples_getElem sectors stacks' k hk]
  rfl

theorem buildUVs_getElem (sectors stacks' k : ℕ)
    (hk : k < (stacks' + 1) * (sectors + 1)) :
    (buildUVs sectors stacks')[k]? =
      some (uvAt sectors stacks' (k / (sectors + 1)) (k % (sectors + 1))) := by
  rw [buildUVs, List.getElem?_map, gridSamples_getElem sectors stacks' k hk]
  rfl

/- ### Claim theorems -/

/-- Claim C1, counterexample: the uv tessellation does not fail on invalid
input.  With semi-axis a = 0 it still produces the full 15-entry vertex
buffer at resolution (4, 2), and with zero stacks or zero sectors it still
produces nonempty buffers rather than an InvalidResolutionError. -/
theorem c1_validation_counterexample :
    ((EllipsoidMeshBuilder.mk ⟨0, 1, 1⟩ ⟨32, 16⟩).uv 4 2).vertices.length = 15 ∧
    ((EllipsoidMeshBuilder.mk ⟨1, 1, 1⟩ ⟨32, 16⟩).uv 5 0).vertices.length = 6 ∧
    ((EllipsoidMeshBuilder.mk ⟨1, 1, 1⟩ ⟨32, 16⟩).uv 0 2).vertices.length = 3 := by
  refine ⟨?_, ?_, ?_⟩ <;> norm_num [EllipsoidMeshBuilder.uv, length_buildVertices]

/-- Claim C1, amended: the uv tessellation performs no input validation and
has no failure outcome.  Even when some semi-axis length is not strictly
positive, or sectors or stacks is zero, it produces the complete buffer set
with (stacks+1) * (sectors+1) entries in each per-vertex buffer. -/
theorem c1_no_validation_buffers_produced (b : EllipsoidMeshBuilder)
    (sectors stacks' : ℕ)
    (_h : b.ellipsoid.a ≤ 0 ∨ b.ellipsoid.b ≤ 0 ∨ b.ellipsoid.c ≤ 0 ∨
      sectors = 0 ∨ stacks' = 0) :
    (b.uv sectors stacks').vertices.length = (stacks' + 1) * (sectors + 1) ∧
    (b.uv sectors stacks').normals.length = (stacks' + 1) * (sectors + 1) ∧
    (b.uv sectors stacks').uvs.length = (stacks' + 1) * (sectors + 1) :=
  ⟨length_buildVertices _ _ _, length_buildNormals _ _ _, length_buildUVs _ _⟩

/-- Witness for the amended C1 at shape (0, 1, 1), resolution (4, 2). -/
theorem c1_no_validation_buffers_produced_witness :
    ((EllipsoidMeshBuilder.mk ⟨0, 1, 1⟩ ⟨32, 16⟩).uv 4 2).normals.length = 15 := by
  have h := c1_no_validation_buffers_produced
    (EllipsoidMeshBuilder.mk ⟨0, 1, 1⟩ ⟨32, 16⟩) 4 2 (Or.inl (le_refl 0))
  rw [h.2.1]

/-- Claim C2: at shape (2, 1, 1), resolution (4, 2), grid sample (1, 0),
the code emits the unit-sphere direction (1, 0, 0) as the normal, which is
not the reciprocal-scaled unit direction (1/2, 0, 0) that the claim (and
the correct ellipsoid surface normal) requires. -/
theorem c2_normal_not_reciprocal_scaled :
    normalAt ⟨2, 1, 1⟩ 4 2 1 0 = (1, 0, 0) ∧
    specNormalAt ⟨2, 1, 1⟩ 4 2 1 0 = (1 / 2, 0, 0) ∧
    normalAt ⟨2, 1, 1⟩ 4 2 1 0 ≠ specNormalAt ⟨2, 1, 1⟩ 4 2 1 0 := by
  have hθ : stackAngle 2 1 = 0 := by
    simp [stackAngle]
  have h1 : normalAt ⟨2, 1, 1⟩ 4 2 1 0 = (1, 0, 0) := by
    norm_num [normalAt, vertexAt, hθ, sectorAngle_zero]
  have h2 : specNormalAt ⟨2, 1, 1⟩ 4 2 1 0 = (1 / 2, 0, 0) := by
    norm_num [specNormalAt, hθ, sectorAngle_zero]
  refine ⟨h1, h2, ?_⟩
  rw [h1, h2]
  intro hcontra
  have := congrArg Prod.fst hcontra
  norm_num at this

/-- Claim C3: for a valid shape and stacks at least 2, sectors at least 1,
the index buffer has length 3 * (2 * (stacks - 2) + 2) * sectors, which is
a multiple of 3. -/
theorem c3_index_count (b : EllipsoidMeshBuilder) (sectors stacks' : ℕ)
    (_ha : 0 < b.ellipsoid.a) (_hb : 0 < b.ellipsoid.b) (_hc : 0 < b.ellipsoid.c)
    (hst : 2 ≤ stacks') (_hs : 1 ≤ sectors) :
    (b.uv sectors stacks').indices.length = 3 * (2 * (stacks' - 2) + 2) * sectors ∧
    3 ∣ (b.uv sectors stacks').indices.length := by
  have h := length_buildIndices sectors stacks' hst
  constructor
  · exact h
  · show 3 ∣ (buildIndices sectors stacks').length
    rw [h]
    exact ⟨(2 * (stacks' - 2) + 2) * sectors, by ring⟩

/-- Witness for C3 at shape (1, 1, 1), resolution (4, 3). -/
theorem c3_index_count_witness :
    ((EllipsoidMeshBuilder.mk ⟨1, 1, 1⟩ ⟨32, 16⟩).uv 4 3).indices.length = 48 := by
  have h := c3_index_count (EllipsoidMeshBuilder.mk ⟨1, 1, 1⟩ ⟨32, 16⟩) 4 3
    (by norm_num) (by norm_num) (by norm_num) (by norm_num) (by norm_num)
  rw [h.1]

/-- Claim C4: the emitted index list is exactly the sequence that, for each
band i below stacks and column j below sectors, with k1 = i*(sectors+1)+j
and k2 = k1+sectors+1, contains the triangle (k1, k2, k1+1) exactly when i
is nonzero followed by (k1+1, k2, k2+1) exactly when i is not stacks-1, in
that order, and nothing else. -/
theorem c4_triangle_emission (b : EllipsoidMeshBuilder) (sectors stacks' : ℕ) :
    (b.uv sectors stacks').indices = specTriangles sectors stacks' :=
  buildIndices_eq_specTriangles sectors stacks'

/-- Claim C5: every value stored in the index buffer is strictly below the
length of the positions buffer. -/
theorem c5_indices_in_bounds (b : EllipsoidMeshBuilder) (sectors stacks' : ℕ)
    (_ha : 0 < b.ellipsoid.a) (_hb : 0 < b.ellipsoid.b) (_hc : 0 < b.ellipsoid.c)
    (_hs : 1 ≤ sectors) (_hst : 1 ≤ stacks') :
    ∀ v ∈ (b.uv sectors stacks').indices,
      v < (b.uv sectors stacks').vertices.length := by
  intro v hv
  exact lt_of_lt_of_eq (mem_buildIndices_lt sectors stacks' v hv)
    (length_buildVertices b.ellipsoid sectors stacks').symm

/-- Witness for C5: index value 1 occurs in the (4, 2) index buffer and is
below the vertex count. -/
theorem c5_indices_in_bounds_witness :
    1 < ((EllipsoidMeshBuilder.mk ⟨1, 1, 1⟩ ⟨32, 16⟩).uv 4 2).vertices.length := by
  have h := c5_indices_in_bounds (EllipsoidMeshBuilder.mk ⟨1, 1, 1⟩ ⟨32, 16⟩) 4 2
    (by norm_num) (by norm_num) (by norm_num) (by norm_num) (by norm_num)
  exact h 1 (by decide : (1 : ℕ) ∈ buildIndices 4 2)

/-- Claim C6: positions, normals and uvs each hold (stacks+1) * (sectors+1)
entries, entry k of each buffer belongs to the grid sample
(k / (sectors+1), k % (sectors+1)), and the (4, 2) scenario yields 15
positions and 24 index entries. -/
theorem c6_buffer_lengths_correspondence (b : EllipsoidMeshBuilder)
    (sectors stacks' : ℕ)
    (_ha : 0 < b.ellipsoid.a) (_hb : 0 < b.ellipsoid.b) (_hc : 0 < b.ellipsoid.c)
    (_hs : 1 ≤ sectors) (_hst : 1 ≤ stacks') :
    ((b.uv sectors stacks').vertices.length = (stacks' + 1) * (sectors + 1) ∧
      (b.uv sectors stacks').normals.length = (stacks' + 1) * (sectors + 1) ∧
      (b.uv sectors stacks').uvs.length = (stacks' + 1) * (sectors + 1)) ∧
    (∀ k, k < (stacks' + 1) * (sectors + 1) →
      (b.uv sectors stacks').vertices[k]? =
        some (vertexAt b.ellipsoid sectors stacks'
          (k / (sectors + 1)) (k % (sectors + 1))) ∧
      (b.uv sectors stacks').normals[k]? =
        some (normalAt b.ellipsoid sectors stacks'
          (k / (sectors + 1)) (k % (sectors + 1))) ∧
      (b.uv sectors stacks').uvs[k]? =
        some (uvAt sectors stacks' (k / (sectors + 1)) (k % (sectors + 1)))) ∧
    ((EllipsoidMeshBuilder.mk ⟨1, 1, 1⟩ ⟨32, 16⟩).uv 4 2).vertices.length = 15 ∧
    ((EllipsoidMeshBuilder.mk ⟨1, 1, 1⟩ ⟨32, 16⟩).uv 4 2).indices.length = 24 := by
  refine ⟨⟨length_buildVertices _ _ _, length_buildNormals _ _ _,
    length_buildUVs _ _⟩, ?_, ?_, ?_⟩
  · intro k hk
    exact ⟨buildVertices_getElem b.ellipsoid sectors stacks' k hk,
      buildNormals_getElem b.ellipsoid sectors stacks' k hk,
      buildUVs_getElem sectors stacks' k hk⟩
  · norm_num [EllipsoidMeshBuilder.uv, length_buildVertices]
  · have h := length_buildIndices 4 2 (by norm_num)
    show (buildIndices 4 2).length = 24
    rw [h]

/-- Witness for C6: entry 7 of the (4, 2) uv buffer is the UV coordinate of
grid sample (1, 2). -/
theorem c6_buffer_lengths_correspondence_witness :
    ((EllipsoidMeshBuilder.mk ⟨1, 1, 1⟩ ⟨32, 16⟩).uv 4 2).uvs[7]? =
      some (uvAt 4 2 1 2) := by
  have h := c6_buffer_lengths_correspondence
    (EllipsoidMeshBuilder.mk ⟨1, 1, 1⟩ ⟨32, 16⟩) 4 2
    (by norm_num) (by norm_num) (by norm_num) (by norm_num) (by norm_num)
  exact (h.2.1 7 (by norm_num)).2.2

/-- Claim C7: the emitted UV coordinate is (j/sectors, i/stacks), both
components lie in [0, 1], and for each row i the samples at j = 0 and at
j = sectors share the position and the v coordinate and differ only in u,
which is 0 at j = 0 and 1 at j = sectors. -/
theorem c7_uv_mapping (e : Ellipsoid) (sectors stacks' i j : ℕ)
    (hs : 1 ≤ sectors) (hst : 1 ≤ stacks') (hi : i ≤ stacks') (hj : j ≤ sectors) :
    uvAt sectors stacks' i j = ((j : ℝ) / sectors, (i : ℝ) / stacks') ∧
    0 ≤ (uvAt sectors stacks' i j).1 ∧ (uvAt sectors stacks' i j).1 ≤ 1 ∧
    0 ≤ (uvAt sectors stacks' i j).2 ∧ (uvAt sectors stacks' i j).2 ≤ 1 ∧
    vertexAt e sectors stacks' i 0 = vertexAt e sectors stacks' i sectors ∧
    (uvAt sectors stacks' i 0).2 = (uvAt sectors stacks' i sectors).2 ∧
    (uvAt sectors stacks' i 0).1 = 0 ∧ (uvAt sectors stacks' i sectors).1 = 1 := by
  have hs0 : (0 : ℝ) < (sectors : ℝ) := by
    exact_mod_cast Nat.pos_of_ne_zero (by omega)
  have hst0 : (0 : ℝ) < (stacks' : ℝ) := by
    exact_mod_cast Nat.pos_of_ne_zero (by omega)
  refine ⟨rfl, ?_, ?_, ?_, ?_, ?_, rfl, ?_, ?_⟩
  · exact div_nonneg (Nat.cast_nonneg j) (le_of_lt hs0)
  · rw [uvAt, div_le_one hs0]
    exact_mod_cast hj
  · exact div_nonneg (Nat.cast_nonneg i) (le_of_lt hst0)
  · rw [uvAt, div_le_one hst0]
    exact_mod_cast hi
  · exact vertexAt_seam e sectors stacks' i (by omega)
  · simp [uvAt]
  · rw [uvAt]
    exact div_self (ne_of_gt hs0)

/-- Witness for C7 at sectors = 4, stacks = 2, row 1, column 3. -/
theorem c7_uv_mapping_witness :
    (uvAt 4 2 1 3).1 ≤ 1 ∧ (uvAt 4 2 1 4).1 = 1 := by
  have h := c7_uv_mapping ⟨1, 1, 1⟩ 4 2 1 3
    (by norm_num) (by norm_num) (by norm_num) (by norm_num)
  exact ⟨h.2.2.1, h.2.2.2.2.2.2.2.2⟩

/-- Claim C8: the emitted normal is parallel to the emitted position scaled
componentwise by the reciprocals of the semi-axis lengths: the two vectors
are in fact equal, so their cross product vanishes. -/
theorem c8_normal_parallel (b : EllipsoidMeshBuilder) (sectors stacks' i j : ℕ)
    (_ha : 0 < b.ellipsoid.a) (_hb : 0 < b.ellipsoid.b) (_hc : 0 < b.ellipsoid.c) :
    normalAt b.ellipsoid sectors stacks' i j =
      recipScale b.ellipsoid (vertexAt b.ellipsoid sectors stacks' i j) ∧
    crossProd (normalAt b.ellipsoid sectors stacks' i j)
      (recipScale b.ellipsoid (vertexAt b.ellipsoid sectors stacks' i j)) =
      (0, 0, 0) := by
  have key : normalAt b.ellipsoid sectors stacks' i j =
      recipScale b.ellipsoid (vertexAt b.ellipsoid sectors stacks' i j) := rfl
  refine ⟨key, ?_⟩
  rw [key]
  simp only [crossProd, Prod.mk.injEq]
  exact ⟨by ring, by ring, by ring⟩

/-- Witness for C8 at shape (1, 2, 3), sectors 8, stacks 4, sample (2, 3). -/
theorem c8_normal_parallel_witness :
    crossProd (normalAt ⟨1, 2, 3⟩ 8 4 2 3)
      (recipScale ⟨1, 2, 3⟩ (vertexAt ⟨1, 2, 3⟩ 8 4 2 3)) = (0, 0, 0) := by
  have h := c8_normal_parallel (EllipsoidMeshBuilder.mk ⟨1, 2, 3⟩ ⟨32, 16⟩) 8 4 2 3
    (by norm_num) (by norm_num) (by norm_num)
  exact h.2

/-- Claim C9: for a valid shape the emitted normal equals the unit-sphere
direction (cos stack_angle * cos sector_angle, cos stack_angle *
sin sector_angle, sin stack_angle) and therefore has exact unit squared
magnitude, independently of the semi-axis lengths. -/
theorem c9_normal_unit_direction (b : EllipsoidMeshBuilder) (sectors stacks' i j : ℕ)
    (ha : 0 < b.ellipsoid.a) (hb : 0 < b.ellipsoid.b) (hc : 0 < b.ellipsoid.c)
    (_hs : 1 ≤ sectors) (_hst : 1 ≤ stacks') :
    normalAt b.ellipsoid sectors stacks' i j =
      (Real.cos (stackAngle stacks' i) * Real.cos (sectorAngle sectors j),
        Real.cos (stackAngle stacks' i) * Real.sin (sectorAngle sectors j),
        Real.sin (stackAngle stacks' i)) ∧
    normSq (normalAt b.ellipsoid sectors stacks' i j) = 1 := by
  have h := normalAt_unit b.ellipsoid sectors stacks' i j
    (ne_of_gt ha) (ne_of_gt hb) (ne_of_gt hc)
  refine ⟨h, ?_⟩
  rw [h]
  exact normSq_unit _ _

/-- Witness for C9 at shape (2, 3, 4), sectors 8, stacks 4, sample (0, 0). -/
theorem c9_normal_unit_direction_witness :
    normSq (normalAt ⟨2, 3, 4⟩ 8 4 0 0) = 1 := by
  have h := c9_normal_unit_direction (EllipsoidMeshBuilder.mk ⟨2, 3, 4⟩ ⟨32, 16⟩) 8 4 0 0
    (by norm_num) (by norm_num) (by norm_num) (by norm_num) (by norm_num)
  exact h.2

/-- Claim C10: with stacks = 1 the index buffer is empty while the three
per-vertex buffers still hold 2 * (sectors + 1) entries each. -/
theorem c10_single_stack_no_triangles (b : EllipsoidMeshBuilder) (sectors : ℕ)
    (_ha : 0 < b.ellipsoid.a) (_hb : 0 < b.ellipsoid.b) (_hc : 0 < b.ellipsoid.c)
    (_hs : 1 ≤ sectors) :
    (b.uv sectors 1).indices = [] ∧
    (b.uv sectors 1).vertices.length = 2 * (sectors + 1) ∧
    (b.uv sectors 1).normals.length = 2 * (sectors + 1) ∧
    (b.uv sectors 1).uvs.length = 2 * (sectors + 1) := by
  refine ⟨buildIndices_stacks_one sectors, ?_, ?_, ?_⟩
  · exact (length_buildVertices b.ellipsoid sectors 1).trans (by ring)
  · exact (length_buildNormals b.ellipsoid sectors 1).trans (by ring)
  · exact (length_buildUVs sectors 1).trans (by ring)

/-- Witness for C10 at shape (1, 1, 1), sectors 3. -/
theorem c10_single_stack_no_triangles_witness :
    ((EllipsoidMeshBuilder.mk ⟨1, 1, 1⟩ ⟨32, 16⟩).uv 3 1).indices = [] ∧
    ((EllipsoidMeshBuilder.mk ⟨1, 1, 1⟩ ⟨32, 16⟩).uv 3 1).vertices.length = 8 := by
  have h := c10_single_stack_no_triangles (EllipsoidMeshBuilder.mk ⟨1, 1, 1⟩ ⟨32, 16⟩) 3
    (by norm_num) (by norm_num) (by norm_num) (by norm_num)
  exact ⟨h.1, h.2.1.trans (by norm_num)⟩

end EllipsoidMesh
